import Mathlib

/-!
Verification of the trading-bot core (feature aggregation, signal
filtering, backtest simulation, reporting) against its specification.

The Python source works on pandas float columns in which a missing value
is IEEE NaN.  We shallowly embed such a column value as `Option ℚ`:
`none` models NaN, `some q` a present value.  NaN semantics used by the
source are mirrored exactly where the claims depend on them: any
arithmetic on NaN yields NaN, and every ordering/equality comparison
against NaN is `false` (as in NumPy).  Division by zero is mapped to
`none`; IEEE would give ±inf or NaN there, but no row of interest ever
has a zero close, so the distinction is never exercised.
-/

/-- A pandas float cell: `none` is NaN/missing, `some q` a present value. -/
abbrev PFloat := Option ℚ

/-- NaN-propagating addition. -/
def nadd : PFloat → PFloat → PFloat
  | some a, some b => some (a + b)
  | _, _ => none

/-- NaN-propagating subtraction. -/
def nsub : PFloat → PFloat → PFloat
  | some a, some b => some (a - b)
  | _, _ => none

/-- NaN-propagating multiplication. -/
def nmul : PFloat → PFloat → PFloat
  | some a, some b => some (a * b)
  | _, _ => none

/-- NaN-propagating division; division by zero is also mapped to `none`. -/
def ndiv : PFloat → PFloat → PFloat
  | some a, some b => if b = 0 then none else some (a / b)
  | _, _ => none

/-- NaN-propagating negation. -/
def nneg : PFloat → PFloat
  | some a => some (-a)
  | none => none

/-- The comparison `cell < t` as NumPy evaluates it: false on NaN. -/
def nlt (a : PFloat) (t : ℚ) : Bool :=
  match a with
  | some q => decide (q < t)
  | none => false

/-- The comparison `cell >= t` as NumPy evaluates it: false on NaN. -/
def nge (a : PFloat) (t : ℚ) : Bool :=
  match a with
  | some q => decide (t ≤ q)
  | none => false

/-- The comparison `cell > 0` as NumPy evaluates it: false on NaN. -/
def ngt0 (a : PFloat) : Bool :=
  match a with
  | some q => decide (0 < q)
  | none => false

/-- The comparison `cell == 0` as NumPy evaluates it: false on NaN. -/
def neq0 (a : PFloat) : Bool :=
  match a with
  | some q => decide (q = 0)
  | none => false

/-- Python `sum` over a list of float cells (starts from 0, NaN poisons). -/
def nsum (l : List PFloat) : PFloat :=
  l.foldl nadd (some 0)

/-- One row of a signals table as read by `backtest.py` / `cli_trading_bot.py`:
the `date` column (dates totally ordered, embedded as `ℤ`), the `Close`
price, and the classifier-attached `prediction` and `probability`. -/
structure SignalRow where
  date : ℤ
  close : PFloat
  prediction : PFloat
  probability : PFloat
deriving DecidableEq

/-- Placeholder row for out-of-range positional access; every access the
simulator performs is in range, so its value never matters. -/
def arbRow : SignalRow := ⟨0, none, none, none⟩

/-- `df.iloc[i]` on the embedded table. -/
def getRow (df : List SignalRow) (i : ℕ) : SignalRow :=
  df.getD i arbRow

-- CONFIGURATION constants of backtest.py
def PROBABILITY_THRESHOLD : ℚ := 7/10
def HOLD_DAYS : ℕ := 5
def TRANSACTION_COST : ℚ := 1/1000

/-- backtest.py line 43: the row is skipped when
`pd.isna(row["prediction"]) or row["probability"] < threshold`.
Note only `prediction` gets an explicit isna test; a NaN `probability`
makes the `<` comparison false and therefore does NOT skip the row. -/
def skipRow (t : ℚ) (row : SignalRow) : Bool :=
  row.prediction.isNone || nlt row.probability t

/-- A row qualifies for a trade exactly when the walk does not skip it. -/
def eligible (t : ℚ) (row : SignalRow) : Bool :=
  !(skipRow t row)

/-- backtest.py lines 50–57: raw return, bearish inversion when
`prediction == 0`, then flat transaction-cost deduction. -/
def tradeRet (c : ℚ) (entry exitR : SignalRow) : PFloat :=
  let r := ndiv (nsub exitR.close entry.close) entry.close
  let r := if neq0 entry.prediction then nneg r else r
  nsub r (some c)

/-- A row of the detailed results ledger (backtest.py lines 68–76). -/
structure TradeRecord where
  entry_date : ℤ
  exit_date : ℤ
  prediction : PFloat
  probability : PFloat
  entry_close : PFloat
  exit_close : PFloat
  return_pct : PFloat
deriving DecidableEq

/-- The TradeRecord appended for entry row `entry` and exit row `exitR`. -/
def mkTrade (c : ℚ) (entry exitR : SignalRow) : TradeRecord :=
  { entry_date := entry.date
    exit_date := exitR.date
    prediction := entry.prediction
    probability := entry.probability
    entry_close := entry.close
    exit_close := exitR.close
    return_pct := nmul (tradeRet c entry exitR) (some 100) }

/-- The mutable locals of `main` in backtest.py. -/
structure BTState where
  results : List TradeRecord
  cumulative : PFloat
  profitable : ℕ
  total : ℕ
deriving DecidableEq

/-- Initial state: `results = []`, `cumulative_return = 1.0`, counters 0. -/
def initState : BTState := ⟨[], some 1, 0, 0⟩

/-- One iteration of the walk (backtest.py lines 40–76) at row index `i`. -/
def btStep (H : ℕ) (t c : ℚ) (df : List SignalRow) (st : BTState) (i : ℕ) : BTState :=
  let row := getRow df i
  if skipRow t row then st
  else
    let exitR := getRow df (i + H)
    let ret := tradeRet c row exitR
    { results := st.results ++ [mkTrade c row exitR]
      cumulative := nmul st.cumulative (nadd (some 1) ret)
      profitable := st.profitable + (if ngt0 ret then 1 else 0)
      total := st.total + 1 }

/-- The full walk: `for i in range(len(df) - HOLD_DAYS)` (backtest.py line 39). -/
def runBacktest (H : ℕ) (t c : ℚ) (df : List SignalRow) : BTState :=
  (List.range (df.length - H)).foldl (btStep H t c df) initState

/-- The summary block printed by backtest.py (lines 79–87). -/
structure BacktestSummary where
  total_trades : ℕ
  profitable_trades : ℕ
  win_rate : ℚ
  avg_return_pct : PFloat
  cumulative_return_pct : PFloat
deriving DecidableEq

/-- backtest.py lines 79–81: the three guarded summary statistics. -/
def summarize (st : BTState) : BacktestSummary :=
  { total_trades := st.total
    profitable_trades := st.profitable
    win_rate := if 0 < st.total then (st.profitable : ℚ) / (st.total : ℚ) * 100 else 0
    avg_return_pct :=
      if st.results.isEmpty then some 0
      else ndiv (nsum (st.results.map TradeRecord.return_pct)) (some (st.results.length : ℚ))
    cumulative_return_pct :=
      if st.results.isEmpty then some 0
      else nmul (nsub st.cumulative (some 1)) (some 100) }

/-- The indices the walk opens a trade at: positions in `range(len − H)`
whose row passes the eligibility test. -/
def eligIdx (H : ℕ) (t : ℚ) (df : List SignalRow) : List ℕ :=
  (List.range (df.length - H)).filter (fun i => eligible t (getRow df i))

/-- cli_trading_bot.py line 46: `df = df[df["probability"] >= min_prob]`.
A NaN probability fails the comparison, so such rows are dropped;
`prediction` is not consulted. -/
def signalFilter (t : ℚ) (df : List SignalRow) : List SignalRow :=
  df.filter (fun row => nge row.probability t)

/-- backtest.py line 28: `df.sort_values("date")` — sort ascending by date.
the pandas default sort is unstable; we model it with `mergeSort`, whose
only observable difference (ordering of equal dates) no claim depends on.
No de-duplication is performed. -/
def sortByDate (df : List SignalRow) : List SignalRow :=
  df.mergeSort (fun a b => decide (a.date ≤ b.date))

/-- `load_latest_signals` (backtest.py lines 19–29), its pure part: the
loaded table is date-sorted and reindexed; nothing else happens to it. -/
def loadSignals (df : List SignalRow) : List SignalRow :=
  sortByDate df

example : eligible (7/10) ⟨0, some 100, some 1, none⟩ = true := by
  norm_num [eligible, skipRow, nlt]
example : eligible (7/10) ⟨0, some 100, none, some 1⟩ = false := by
  norm_num [eligible, skipRow, nlt]
example : tradeRet (1/1000) ⟨0, some 100, some 1, some (8/10)⟩ ⟨5, some 110, none, none⟩
    = some (99/1000) := by
  norm_num [tradeRet, ndiv, nsub, neq0, nneg]
/-- Ledger of the walk: everything the loop body ever appends, in order. -/
lemma foldl_btStep_results (H : ℕ) (t c : ℚ) (df : List SignalRow) (l : List ℕ) (st : BTState) :
    (l.foldl (btStep H t c df) st).results
      = st.results ++ (l.filter (fun i => eligible t (getRow df i))).map
          (fun i => mkTrade c (getRow df i) (getRow df (i + H))) := by
  induction l generalizing st with
  | nil => simp
  | cons i l ih =>
    simp only [List.foldl_cons, List.filter_cons]
    by_cases h : skipRow t (getRow df i) = true
    · have he : eligible t (getRow df i) = false := by simp [eligible, h]
      simp [btStep, h, he, ih]
    · have he : eligible t (getRow df i) = true := by simp [eligible]; simpa using h
      simp [btStep, h, he, ih]

/-- Trade counter of the walk: it counts the rows that pass the filter. -/
lemma foldl_btStep_total (H : ℕ) (t c : ℚ) (df : List SignalRow) (l : List ℕ) (st : BTState) :
    (l.foldl (btStep H t c df) st).total
      = st.total + (l.filter (fun i => eligible t (getRow df i))).length := by
  induction l generalizing st with
  | nil => simp
  | cons i l ih =>
    simp only [List.foldl_cons, List.filter_cons]
    by_cases h : skipRow t (getRow df i) = true
    · have he : eligible t (getRow df i) = false := by simp [eligible, h]
      simp [btStep, h, he, ih]
    · have he : eligible t (getRow df i) = true := by simp [eligible]; simpa using h
      simp [btStep, h, he, ih]
      omega

/-- Win counter of the walk: filtered rows with strictly positive return. -/
lemma foldl_btStep_profitable (H : ℕ) (t c : ℚ) (df : List SignalRow) (l : List ℕ) (st : BTState) :
    (l.foldl (btStep H t c df) st).profitable
      = st.profitable + ((l.filter (fun i => eligible t (getRow df i))).filter
          (fun i => ngt0 (tradeRet c (getRow df i) (getRow df (i + H))))).length := by
  induction l generalizing st with
  | nil => simp
  | cons i l ih =>
    simp only [List.foldl_cons, List.filter_cons]
    by_cases h : skipRow t (getRow df i) = true
    · have he : eligible t (getRow df i) = false := by simp [eligible, h]
      simp [btStep, h, he, ih]
    · have he : eligible t (getRow df i) = true := by simp [eligible]; simpa using h
      by_cases hp : ngt0 (tradeRet c (getRow df i) (getRow df (i + H))) = true
      · simp [btStep, h, he, hp, ih, List.filter_cons]
        omega
      · simp [btStep, h, he, hp, ih, List.filter_cons]

/-- Cumulative product of the walk: it folds `(1 + r)` over the filtered rows. -/
lemma foldl_btStep_cumulative (H : ℕ) (t c : ℚ) (df : List SignalRow) (l : List ℕ) (st : BTState) :
    (l.foldl (btStep H t c df) st).cumulative
      = ((l.filter (fun i => eligible t (getRow df i))).map
          (fun i => tradeRet c (getRow df i) (getRow df (i + H)))).foldl
          (fun a r => nmul a (nadd (some 1) r)) st.cumulative := by
  induction l generalizing st with
  | nil => simp
  | cons i l ih =>
    simp only [List.foldl_cons, List.filter_cons]
    by_cases h : skipRow t (getRow df i) = true
    · have he : eligible t (getRow df i) = false := by simp [eligible, h]
      simp [btStep, h, he, ih]
    · have he : eligible t (getRow df i) = true := by simp [eligible]; simpa using h
      simp [btStep, h, he, ih]

lemma runBacktest_results (H : ℕ) (t c : ℚ) (df : List SignalRow) :
    (runBacktest H t c df).results
      = (eligIdx H t df).map (fun i => mkTrade c (getRow df i) (getRow df (i + H))) := by
  simp [runBacktest, eligIdx, foldl_btStep_results, initState]

lemma runBacktest_total (H : ℕ) (t c : ℚ) (df : List SignalRow) :
    (runBacktest H t c df).total = (eligIdx H t df).length := by
  simp [runBacktest, eligIdx, foldl_btStep_total, initState]

lemma runBacktest_profitable (H : ℕ) (t c : ℚ) (df : List SignalRow) :
    (runBacktest H t c df).profitable
      = ((eligIdx H t df).filter
          (fun i => ngt0 (tradeRet c (getRow df i) (getRow df (i + H))))).length := by
  simp [runBacktest, eligIdx, foldl_btStep_profitable, initState]

lemma runBacktest_cumulative (H : ℕ) (t c : ℚ) (df : List SignalRow) :
    (runBacktest H t c df).cumulative
      = ((eligIdx H t df).map (fun i => tradeRet c (getRow df i) (getRow df (i + H)))).foldl
          (fun a r => nmul a (nadd (some 1) r)) (some 1) := by
  simp [runBacktest, eligIdx, foldl_btStep_cumulative, initState]

example : runBacktest 5 (7/10) (1/1000)
    [⟨0, some 100, some 1, some (8/10)⟩, ⟨1, none, none, none⟩, ⟨2, none, none, none⟩,
     ⟨3, none, none, none⟩, ⟨4, none, none, none⟩, ⟨5, some 110, none, none⟩]
    = ⟨[⟨0, 5, some 1, some (8/10), some 100, some 110, some (99/10)⟩], some (1099/1000), 1, 1⟩ := by
  norm_num [runBacktest, List.range_succ, btStep, skipRow, nlt, getRow, initState,
    mkTrade, tradeRet, ndiv, nsub, neq0, nneg, nmul, nadd, ngt0]

/-- Table for the C1 counterexample: 6 rows, hold 5, so the walk visits
only index 0; index 1 = length − hold_days is qualifying but unvisited. -/
def df1 : List SignalRow :=
  [⟨0, some 100, none, none⟩, ⟨1, some 101, some 1, some (8/10)⟩, ⟨2, some 102, none, none⟩,
   ⟨3, some 103, none, none⟩, ⟨4, some 104, none, none⟩, ⟨5, some 105, none, none⟩]

/-- Claim C1 is false as stated: in this 6-row table with hold_days = 5 the
row at index length − hold_days = 1 qualifies (prediction present,
probability 0.80 ≥ 0.70), yet the walk `for i in range(len(df) - HOLD_DAYS)`
never visits it and no trade is opened. -/
theorem c1_counterexample :
    df1.length - HOLD_DAYS = 1 ∧
    eligible PROBABILITY_THRESHOLD (getRow df1 1) = true ∧
    (runBacktest HOLD_DAYS PROBABILITY_THRESHOLD TRANSACTION_COST df1).total = 0 := by
  refine ⟨by norm_num [df1, HOLD_DAYS], ?_, ?_⟩
  · norm_num [df1, getRow, eligible, skipRow, nlt, PROBABILITY_THRESHOLD]
  · norm_num [df1, HOLD_DAYS, PROBABILITY_THRESHOLD, TRANSACTION_COST, runBacktest,
      List.range_succ, btStep, skipRow, nlt, getRow, initState]

/-- Claim C1 (amended): the walk visits exactly indices 0 … length − H − 1,
so the trade count is the number of eligible indices in that range, and a
qualifying row at index length − H − 1 (the last visited one) opens a trade
whose exit row is the final row; a qualifying row at index length − H or
later opens none, because only indices below length − H are counted. -/
theorem c1_amended (H : ℕ) (t c : ℚ) (df : List SignalRow) (h : H < df.length) :
    (runBacktest H t c df).total = (eligIdx H t df).length ∧
    (eligible t (getRow df (df.length - H - 1)) = true →
      mkTrade c (getRow df (df.length - H - 1)) (getRow df (df.length - 1))
        ∈ (runBacktest H t c df).results) := by
  refine ⟨runBacktest_total H t c df, fun helig => ?_⟩
  rw [runBacktest_results]
  have hmem : df.length - H - 1 ∈ eligIdx H t df := by
    simp only [eligIdx, List.mem_filter, List.mem_range]
    exact ⟨by omega, helig⟩
  have harr : df.length - H - 1 + H = df.length - 1 := by omega
  have hmap := List.mem_map_of_mem
    (fun i => mkTrade c (getRow df i) (getRow df (i + H))) hmem
  simpa [harr] using hmap

/-- Table for the C1 witness: 6 rows whose first row qualifies. -/
def df1w : List SignalRow :=
  [⟨0, some 100, some 1, some (9/10)⟩, ⟨1, none, none, none⟩, ⟨2, none, none, none⟩,
   ⟨3, none, none, none⟩, ⟨4, none, none, none⟩, ⟨5, some 110, none, none⟩]

/-- Witness instantiating `c1_amended` at a concrete 6-row table. -/
theorem c1_witness :
    5 < df1w.length ∧
    ((runBacktest 5 (7/10) (1/1000) df1w).total = (eligIdx 5 (7/10) df1w).length ∧
     (eligible (7/10) (getRow df1w (df1w.length - 5 - 1)) = true →
       mkTrade (1/1000) (getRow df1w (df1w.length - 5 - 1)) (getRow df1w (df1w.length - 1))
         ∈ (runBacktest 5 (7/10) (1/1000) df1w).results)) :=
  ⟨by norm_num [df1w], c1_amended 5 (7/10) (1/1000) df1w (by norm_num [df1w])⟩

/-- Table for the C2 counterexample: row 0 has a present prediction but a
missing (NaN) probability. -/
def df2 : List SignalRow :=
  [⟨0, some 100, some 1, none⟩, ⟨1, none, none, none⟩, ⟨2, none, none, none⟩,
   ⟨3, none, none, none⟩, ⟨4, none, none, none⟩, ⟨5, some 110, none, none⟩]

/-- Claim C2 is false as stated: backtest.py line 43 tests only
`pd.isna(row["prediction"])`; a NaN probability makes
`row["probability"] < threshold` false, so this row with a present
prediction and a missing probability is NOT skipped and produces a
TradeRecord. -/
theorem c2_counterexample :
    (getRow df2 0).prediction = some 1 ∧ (getRow df2 0).probability = none ∧
    (runBacktest HOLD_DAYS PROBABILITY_THRESHOLD TRANSACTION_COST df2).results
      = [⟨0, 5, some 1, none, some 100, some 110, some (99/10)⟩] := by
  refine ⟨by norm_num [df2, getRow], by norm_num [df2, getRow], ?_⟩
  norm_num [df2, HOLD_DAYS, PROBABILITY_THRESHOLD, TRANSACTION_COST, runBacktest,
    List.range_succ, btStep, skipRow, nlt, getRow, initState, mkTrade, tradeRet,
    ndiv, nsub, neq0, nneg, nmul, nadd, ngt0]

/-- Claim C2 (amended): a visited row with a missing prediction opens no
trade; but a visited row with a present prediction and a missing
probability is not excluded — the NaN threshold comparison is false, so
it produces a TradeRecord (likewise a missing close does not raise, it
merely yields a NaN return). -/
theorem c2_amended (H : ℕ) (t c : ℚ) (df : List SignalRow) (i : ℕ) (hi : i < df.length - H) :
    ((getRow df i).prediction = none → eligible t (getRow df i) = false) ∧
    ((getRow df i).prediction ≠ none → (getRow df i).probability = none →
      mkTrade c (getRow df i) (getRow df (i + H)) ∈ (runBacktest H t c df).results) := by
  constructor
  · intro hp
    simp [eligible, skipRow, hp]
  · intro hp hq
    rw [runBacktest_results]
    apply List.mem_map_of_mem
    simp only [eligIdx, List.mem_filter, List.mem_range]
    refine ⟨hi, ?_⟩
    cases hpred : (getRow df i).prediction with
    | none => exact absurd hpred hp
    | some p => simp [eligible, skipRow, hpred, hq, nlt]

/-- Witness instantiating `c2_amended` at the concrete table `df2`, row 0. -/
theorem c2_witness :
    0 < df2.length - 5 ∧
    (((getRow df2 0).prediction = none → eligible (7/10) (getRow df2 0) = false) ∧
     ((getRow df2 0).prediction ≠ none → (getRow df2 0).probability = none →
       mkTrade (1/1000) (getRow df2 0) (getRow df2 (0 + 5))
         ∈ (runBacktest 5 (7/10) (1/1000) df2).results)) :=
  ⟨by norm_num [df2], c2_amended 5 (7/10) (1/1000) df2 0 (by norm_num [df2])⟩

/-- Claim C3: the recorded return_pct of every trade in the ledger is the
raw fractional return, negated exactly when the entry prediction equals 0,
minus the transaction cost, times 100. -/
theorem c3_return_formula (H : ℕ) (t c : ℚ) (df : List SignalRow) (r : TradeRecord)
    (hr : r ∈ (runBacktest H t c df).results) (e x : ℚ)
    (he : r.entry_close = some e) (hx : r.exit_close = some x) (hne : e ≠ 0) :
    r.return_pct
      = some (((if r.prediction = some 0 then -((x - e) / e) else (x - e) / e) - c) * 100) := by
  rw [runBacktest_results] at hr
  obtain ⟨i, hi, rfl⟩ := List.mem_map.mp hr
  simp only [mkTrade] at he hx ⊢
  revert he hx
  obtain ⟨d, cl, pred, prob⟩ := getRow df i
  obtain ⟨d2, cl2, pred2, prob2⟩ := getRow df (i + H)
  intro he hx
  simp only at he hx ⊢
  subst he
  subst hx
  cases pred with
  | none =>
    simp [tradeRet, hne, ndiv, nsub, nneg, neq0, nmul]
  | some p =>
    by_cases hp : p = 0
    · subst hp
      simp [tradeRet, hne, ndiv, nsub, nneg, neq0, nmul]
    · simp [tradeRet, hne, ndiv, nsub, nneg, neq0, nmul, hp]

/-- Table for the C3 witness: a bullish trade (row 0, exit row 5) and a
bearish trade (row 1, exit row 6), both entering at close 100 and exiting
at close 110 with cost 0.001 — the 9.9 / −10.1 example of the spec. -/
def df3 : List SignalRow :=
  [⟨0, some 100, some 1, some (8/10)⟩, ⟨1, some 100, some 0, some (8/10)⟩,
   ⟨2, none, none, none⟩, ⟨3, none, none, none⟩, ⟨4, none, none, none⟩,
   ⟨5, some 110, none, none⟩, ⟨6, some 110, none, none⟩]

/-- The bullish TradeRecord produced from `df3`. -/
def rBull : TradeRecord := ⟨0, 5, some 1, some (8/10), some 100, some 110, some (99/10)⟩

/-- The bearish TradeRecord produced from `df3`. -/
def rBear : TradeRecord := ⟨1, 6, some 0, some (8/10), some 100, some 110, some (-(101/10))⟩

lemma df3_results :
    (runBacktest 5 (7/10) (1/1000) df3).results = [rBull, rBear] := by
  norm_num [df3, rBull, rBear, runBacktest, List.range_succ, btStep, skipRow, nlt, getRow,
    initState, mkTrade, tradeRet, ndiv, nsub, neq0, nneg, nmul, nadd, ngt0]

/-- Witness instantiating `c3_return_formula` on both concrete trades of
`df3`: entry 100, exit 110, cost 0.001 give 9.9 (bullish) and −10.1
(bearish). -/
theorem c3_witness :
    (rBull ∈ (runBacktest 5 (7/10) (1/1000) df3).results ∧
     rBull.entry_close = some 100 ∧ rBull.exit_close = some 110 ∧ (100 : ℚ) ≠ 0) ∧
    rBull.return_pct
      = some (((if rBull.prediction = some 0 then -(((110 : ℚ) - 100) / 100)
                else ((110 : ℚ) - 100) / 100) - 1/1000) * 100) ∧
    rBear.return_pct
      = some (((if rBear.prediction = some 0 then -(((110 : ℚ) - 100) / 100)
                else ((110 : ℚ) - 100) / 100) - 1/1000) * 100) ∧
    rBull.return_pct = some (99/10) ∧ rBear.return_pct = some (-(101/10)) := by
  have hBull : rBull ∈ (runBacktest 5 (7/10) (1/1000) df3).results := by
    rw [df3_results]; exact List.mem_cons_self _ _
  have hBear : rBear ∈ (runBacktest 5 (7/10) (1/1000) df3).results := by
    rw [df3_results]; simp
  refine ⟨⟨hBull, rfl, rfl, by norm_num⟩, ?_, ?_, rfl, rfl⟩
  · exact c3_return_formula 5 (7/10) (1/1000) df3 rBull hBull 100 110 rfl rfl (by norm_num)
  · exact c3_return_formula 5 (7/10) (1/1000) df3 rBear hBear 100 110 rfl rfl (by norm_num)

/-- Table for the C4 concrete instance: two sequential non-overlapping
trades (entry rows 0 and 5) with post-cost fractional returns 1/10 and
−1/20. -/
def df4 : List SignalRow :=
  [⟨0, some 1000, some 1, some (8/10)⟩, ⟨1, none, none, none⟩, ⟨2, none, none, none⟩,
   ⟨3, none, none, none⟩, ⟨4, none, none, none⟩, ⟨5, some 1101, some 1, some (8/10)⟩,
   ⟨6, none, none, none⟩, ⟨7, none, none, none⟩, ⟨8, none, none, none⟩,
   ⟨9, none, none, none⟩, ⟨10, some (1047051/1000), none, none⟩]

/-- Claim C4: the reported cumulative_return_pct is the compounded product
of (1 + r) over the trades in entry order, started at 1.0, minus 1, times
100 (the no-trade branch returns some 0, which the formula also yields);
and on the concrete two-trade table with post-cost returns 0.10 and −0.05
it equals 4.5. -/
theorem c4_compounded_cumulative :
    (∀ (H : ℕ) (t c : ℚ) (df : List SignalRow),
      (summarize (runBacktest H t c df)).cumulative_return_pct
        = nmul (nsub (((eligIdx H t df).map
              (fun i => tradeRet c (getRow df i) (getRow df (i + H)))).foldl
              (fun a r => nmul a (nadd (some 1) r)) (some 1)) (some 1)) (some 100)) ∧
    (summarize (runBacktest HOLD_DAYS PROBABILITY_THRESHOLD TRANSACTION_COST df4)).cumulative_return_pct
      = some (9/2) := by
  constructor
  · intro H t c df
    by_cases hemp : eligIdx H t df = []
    · simp [summarize, runBacktest_results, hemp, nmul, nsub, nadd]
    · have hne : ¬((runBacktest H t c df).results.isEmpty = true) := by
        rw [runBacktest_results]
        simpa [List.isEmpty_iff] using hemp
      simp only [summarize, hne, if_false]
      rw [runBacktest_cumulative]
      simp
  · norm_num [df4, HOLD_DAYS, PROBABILITY_THRESHOLD, TRANSACTION_COST, summarize,
      runBacktest, List.range_succ, btStep, skipRow, nlt, getRow, initState, mkTrade,
      tradeRet, ndiv, nsub, neq0, nneg, nmul, nadd, ngt0]

/-- Claim C5: whenever no visited row is eligible (in particular whenever
hold_days ≥ length), the run completes and the summary is exactly five
zeros, each division being short-circuited by its explicit guard. -/
theorem c5_empty_run (H : ℕ) (t c : ℚ) (df : List SignalRow)
    (h : ∀ i, i < df.length - H → eligible t (getRow df i) = false) :
    summarize (runBacktest H t c df) = ⟨0, 0, 0, some 0, some 0⟩ := by
  have hidx : eligIdx H t df = [] := by
    rw [eligIdx, List.filter_eq_nil_iff]
    intro i hi
    simp [h i (List.mem_range.mp hi)]
  have h1 := runBacktest_results H t c df
  have h2 := runBacktest_total H t c df
  have h3 := runBacktest_profitable H t c df
  have h4 := runBacktest_cumulative H t c df
  rw [hidx] at h1 h2 h3 h4
  simp only [List.map_nil, List.length_nil, List.filter_nil, List.foldl_nil] at h1 h2 h3 h4
  simp [summarize, h1, h2, h3, h4]

/-- Table for the C5 witness: the only visited row has probability 0.50,
below the 0.70 threshold. -/
def df5 : List SignalRow :=
  [⟨0, some 100, some 1, some (1/2)⟩, ⟨1, some 101, some 1, some (1/2)⟩,
   ⟨2, some 102, some 1, some (1/2)⟩, ⟨3, some 103, some 1, some (1/2)⟩,
   ⟨4, some 104, some 1, some (1/2)⟩, ⟨5, some 105, some 1, some (1/2)⟩]

/-- Witness instantiating `c5_empty_run` at the concrete table `df5`. -/
theorem c5_witness :
    (∀ i, i < df5.length - 5 → eligible (7/10) (getRow df5 i) = false) ∧
    summarize (runBacktest 5 (7/10) (1/1000) df5) = ⟨0, 0, 0, some 0, some 0⟩ := by
  have h : ∀ i, i < df5.length - 5 → eligible (7/10) (getRow df5 i) = false := by
    intro i hi
    have hi0 : i = 0 := by
      simp only [df5, List.length_cons, List.length_nil] at hi
      omega
    subst hi0
    norm_num [df5, getRow, eligible, skipRow, nlt]
  exact ⟨h, c5_empty_run 5 (7/10) (1/1000) df5 h⟩

/-- Claim C6: the Signal Filter is monotonic in the threshold — everything
selected at the higher threshold is selected at the lower one — and the
surviving rows keep their relative (ascending-date) order; also the
per-row eligibility test of the backtest is monotone in the threshold. -/
theorem c6_monotone_filter (t1 t2 : ℚ) (h : t1 < t2) (df : List SignalRow) :
    (∀ row ∈ signalFilter t2 df, row ∈ signalFilter t1 df) ∧
    (signalFilter t2 df).Sublist df ∧
    (List.Pairwise (fun a b : SignalRow => a.date ≤ b.date) df →
      List.Pairwise (fun a b : SignalRow => a.date ≤ b.date) (signalFilter t2 df)) ∧
    (∀ row : SignalRow, eligible t2 row = true → eligible t1 row = true) := by
  refine ⟨?_, List.filter_sublist df,
    fun hs => List.Pairwise.sublist (List.filter_sublist df) hs, ?_⟩
  · intro row hrow
    rw [signalFilter, List.mem_filter] at hrow ⊢
    refine ⟨hrow.1, ?_⟩
    have h2 := hrow.2
    cases hp : row.probability with
    | none => rw [hp] at h2; simp [nge] at h2
    | some p =>
      rw [hp] at h2
      simp only [nge, decide_eq_true_eq] at h2
      simp only [nge, decide_eq_true_eq]
      linarith
  · intro row he
    simp only [eligible, skipRow, Bool.not_eq_true', Bool.or_eq_false_iff] at he ⊢
    refine ⟨he.1, ?_⟩
    have h2 := he.2
    cases hp : row.probability with
    | none => simp [nlt]
    | some p =>
      rw [hp] at h2
      simp only [nlt, decide_eq_false_iff_not, not_lt] at h2 ⊢
      linarith

/-- Table for the C6 witness: one row passes only the lower threshold,
one passes both. -/
def df6 : List SignalRow :=
  [⟨0, some 100, some 1, some (6/10)⟩, ⟨1, some 101, some 1, some (8/10)⟩]

/-- Witness instantiating `c6_monotone_filter` at thresholds 0.50 < 0.70. -/
theorem c6_witness :
    (1/2 : ℚ) < 7/10 ∧
    ((∀ row ∈ signalFilter (7/10) df6, row ∈ signalFilter (1/2) df6) ∧
     (signalFilter (7/10) df6).Sublist df6 ∧
     (List.Pairwise (fun a b : SignalRow => a.date ≤ b.date) df6 →
       List.Pairwise (fun a b : SignalRow => a.date ≤ b.date) (signalFilter (7/10) df6)) ∧
     (∀ row : SignalRow, eligible (7/10) row = true → eligible (1/2) row = true)) :=
  ⟨by norm_num, c6_monotone_filter (1/2) (7/10) (by norm_num) df6⟩

/-- Table for the C7 concrete instance: a single trade whose post-cost
return is exactly 0 (entry 1000, exit 1001, cost 0.001). -/
def df7 : List SignalRow :=
  [⟨0, some 1000, some 1, some (8/10)⟩, ⟨1, none, none, none⟩, ⟨2, none, none, none⟩,
   ⟨3, none, none, none⟩, ⟨4, none, none, none⟩, ⟨5, some 1001, none, none⟩]

/-- Claim C7: win_rate is profitable_trades / total_trades × 100 with an
explicit 0 fallback for zero trades, and profitable_trades counts exactly
the trades with strictly positive post-cost return; on the concrete table
whose single trade returns exactly 0, that trade is not counted as a win
and the win rate is 0. -/
theorem c7_win_rate (H : ℕ) (t c : ℚ) (df : List SignalRow) :
    ((summarize (runBacktest H t c df)).win_rate
        = (if 0 < (runBacktest H t c df).total
            then ((runBacktest H t c df).profitable : ℚ) / ((runBacktest H t c df).total : ℚ) * 100
            else 0)) ∧
    ((runBacktest H t c df).profitable
        = ((eligIdx H t df).filter
            (fun i => ngt0 (tradeRet c (getRow df i) (getRow df (i + H))))).length) ∧
    summarize (runBacktest HOLD_DAYS PROBABILITY_THRESHOLD TRANSACTION_COST df7)
      = ⟨1, 0, 0, some 0, some 0⟩ := by
  refine ⟨rfl, runBacktest_profitable H t c df, ?_⟩
  norm_num [df7, HOLD_DAYS, PROBABILITY_THRESHOLD, TRANSACTION_COST, summarize,
    runBacktest, List.range_succ, btStep, skipRow, nlt, getRow, initState, mkTrade,
    tradeRet, ndiv, nsub, neq0, nneg, nmul, nadd, ngt0, nsum]

/-- Claim C10: the simulator never validates that prediction lies in {0,1}.
A present prediction makes the eligibility test depend only on the
probability threshold, and any present prediction different from 0 leaves
the raw return un-negated — it behaves exactly like prediction = 1. -/
theorem c10_nonzero_prediction_bullish (t c : ℚ) (entry exitR : SignalRow) (p : ℚ)
    (hp : entry.prediction = some p) (h0 : p ≠ 0) :
    eligible t entry = !(nlt entry.probability t) ∧
    tradeRet c entry exitR = nsub (ndiv (nsub exitR.close entry.close) entry.close) (some c) ∧
    tradeRet c entry exitR = tradeRet c { entry with prediction := some 1 } exitR := by
  refine ⟨by simp [eligible, skipRow, hp], ?_, ?_⟩
  · simp [tradeRet, neq0, hp, h0]
  · simp [tradeRet, neq0, hp, h0]

/-- Entry row for the C10 witness, carrying the out-of-domain prediction 2. -/
def entC10 : SignalRow := ⟨0, some 100, some 2, some (8/10)⟩

/-- Exit row for the C10 witness. -/
def exC10 : SignalRow := ⟨5, some 110, none, none⟩

/-- Witness instantiating `c10_nonzero_prediction_bullish` with the
out-of-domain prediction value 2. -/
theorem c10_witness :
    entC10.prediction = some 2 ∧ (2 : ℚ) ≠ 0 ∧
    (eligible (7/10) entC10 = !(nlt entC10.probability (7/10)) ∧
     tradeRet (1/1000) entC10 exC10
        = nsub (ndiv (nsub exC10.close entC10.close) entC10.close) (some (1/1000)) ∧
     tradeRet (1/1000) entC10 exC10
        = tradeRet (1/1000) { entC10 with prediction := some 1 } exC10) :=
  ⟨rfl, by norm_num,
    c10_nonzero_prediction_bullish (7/10) (1/1000) entC10 exC10 2 rfl (by norm_num)⟩

/-- The trailing inclusive window of width `W` ending at row `i`:
rows `i + 1 − W` … `i`. -/
def windowAt (W : ℕ) (xs : List ℚ) (i : ℕ) : List ℚ :=
  (xs.take (i + 1)).drop (i + 1 - W)

/-- pandas `Series.rolling(window=W).agg(f)` with the default
`min_periods = W` on a series without missing values: undefined (NaN)
until `W` observations exist, then `f` of the trailing window. -/
def rolling (W : ℕ) (f : List ℚ → ℚ) (xs : List ℚ) : List (Option ℚ) :=
  (List.range xs.length).map (fun i => if i + 1 < W then none else some (f (windowAt W xs i)))

/-- Arithmetic mean of a window (`.mean()`). -/
def listMean (l : List ℚ) : ℚ :=
  l.sum / (l.length : ℚ)

/-- Sample variance of a window, i.e. the square of pandas `.std()`
(ddof = 1).  The standard deviation itself is irrational in general, so
the development tracks its square; the variance of a window is defined exactly
when its standard deviation is, which is all the claims need. -/
def sampleVar (l : List ℚ) : ℚ :=
  (l.map (fun x => (x - listMean l) ^ 2)).sum / ((l.length : ℚ) - 1)

/-- generate_features.py line 112: `df["Close"].rolling(window=10).mean()`. -/
def ma_10 (xs : List ℚ) : List (Option ℚ) :=
  rolling 10 listMean xs

/-- generate_features.py line 113: `df["Close"].rolling(window=20).mean()`. -/
def ma_20 (xs : List ℚ) : List (Option ℚ) :=
  rolling 20 listMean xs

/-- generate_features.py line 114: `df["Close"].rolling(window=10).std()`,
tracked through its square (see `sampleVar`). -/
def volatility_10d (xs : List ℚ) : List (Option ℚ) :=
  rolling 10 sampleVar xs

lemma length_rolling (W : ℕ) (f : List ℚ → ℚ) (xs : List ℚ) :
    (rolling W f xs).length = xs.length := by
  simp [rolling]

lemma rolling_getD (W : ℕ) (f : List ℚ → ℚ) (xs : List ℚ) (i : ℕ) (hi : i < xs.length) :
    (rolling W f xs).getD i none
      = if i + 1 < W then none else some (f (windowAt W xs i)) := by
  have hlen : i < (rolling W f xs).length := by rw [length_rolling]; exact hi
  rw [List.getD_eq_getElem _ _ hlen]
  simp [rolling]

/-- Claim C8: on a date-sorted price series, ma_10 and volatility_10d are
missing for exactly the first 9 rows (hence for every row when fewer than
10 exist) and ma_20 for exactly the first 19; from row W − 1 onward the
statistic is defined and computed from exactly the trailing W rows ending
at that row, never backfilled. -/
theorem c8_rolling_undefined_region (xs : List ℚ) (i : ℕ) (hi : i < xs.length) :
    ((ma_10 xs).getD i none = none ↔ i < 9) ∧
    ((volatility_10d xs).getD i none = none ↔ i < 9) ∧
    ((ma_20 xs).getD i none = none ↔ i < 19) ∧
    (9 ≤ i → (ma_10 xs).getD i none = some (listMean (windowAt 10 xs i))) ∧
    (9 ≤ i → (volatility_10d xs).getD i none = some (sampleVar (windowAt 10 xs i))) ∧
    (19 ≤ i → (ma_20 xs).getD i none = some (listMean (windowAt 20 xs i))) ∧
    (∀ W, W ≤ i + 1 →
      windowAt W xs i = (xs.drop (i + 1 - W)).take W ∧ (windowAt W xs i).length = W) := by
  refine ⟨?_, ?_, ?_, ?_, ?_, ?_, ?_⟩
  · rw [ma_10, rolling_getD 10 listMean xs i hi]
    by_cases h : i + 1 < 10 <;> simp [h] <;> omega
  · rw [volatility_10d, rolling_getD 10 sampleVar xs i hi]
    by_cases h : i + 1 < 10 <;> simp [h] <;> omega
  · rw [ma_20, rolling_getD 20 listMean xs i hi]
    by_cases h : i + 1 < 20 <;> simp [h] <;> omega
  · intro h
    rw [ma_10, rolling_getD 10 listMean xs i hi, if_neg (by omega)]
  · intro h
    rw [volatility_10d, rolling_getD 10 sampleVar xs i hi, if_neg (by omega)]
  · intro h
    rw [ma_20, rolling_getD 20 listMean xs i hi, if_neg (by omega)]
  · intro W hW
    constructor
    · rw [windowAt, List.drop_take]
      congr 1
      omega
    · rw [windowAt, List.length_drop, List.length_take]
      omega

/-- Price series for the C8 witness: 21 distinct closes. -/
def xsC8 : List ℚ :=
  [0, 1, 2, 3, 4, 5, 6, 7, 8, 9, 10, 11, 12, 13, 14, 15, 16, 17, 18, 19, 20]

/-- Witness instantiating `c8_rolling_undefined_region` at the last row of
a 21-row series, where all three statistics are defined. -/
theorem c8_witness :
    20 < xsC8.length ∧
    (((ma_10 xsC8).getD 20 none = none ↔ 20 < 9) ∧
     ((volatility_10d xsC8).getD 20 none = none ↔ 20 < 9) ∧
     ((ma_20 xsC8).getD 20 none = none ↔ 20 < 19) ∧
     (9 ≤ 20 → (ma_10 xsC8).getD 20 none = some (listMean (windowAt 10 xsC8 20))) ∧
     (9 ≤ 20 → (volatility_10d xsC8).getD 20 none = some (sampleVar (windowAt 10 xsC8 20))) ∧
     (19 ≤ 20 → (ma_20 xsC8).getD 20 none = some (listMean (windowAt 20 xsC8 20))) ∧
     (∀ W, W ≤ 20 + 1 →
       windowAt W xsC8 20 = (xsC8.drop (20 + 1 - W)).take W ∧ (windowAt W xsC8 20).length = W)) :=
  ⟨by norm_num [xsC8], c8_rolling_undefined_region xsC8 20 (by norm_num [xsC8])⟩

/-- Table for the C9 counterexample: two rows sharing the same date. -/
def df9 : List SignalRow :=
  [⟨0, some 100, some 1, some (8/10)⟩, ⟨0, some 200, some 1, some (9/10)⟩]

/-- Claim C9 is false as stated: loading a table with a duplicated date
leaves both rows in place — load_latest_signals only sorts, it neither
de-duplicates by date nor fails any precondition check, and the
simulation then runs on the duplicated table without error. -/
theorem c9_counterexample :
    (loadSignals df9).length = 2 ∧
    (getRow (loadSignals df9) 0).date = (getRow (loadSignals df9) 1).date ∧
    summarize (runBacktest HOLD_DAYS PROBABILITY_THRESHOLD TRANSACTION_COST (loadSignals df9))
      = ⟨0, 0, 0, some 0, some 0⟩ := by
  have hperm : (loadSignals df9).Perm df9 := List.mergeSort_perm df9 _
  have hlen : (loadSignals df9).length = 2 := by
    rw [hperm.length_eq]
    rfl
  have hdate : ∀ row ∈ loadSignals df9, row.date = 0 := by
    intro row hrow
    have : row ∈ df9 := hperm.mem_iff.mp hrow
    simp only [df9, List.mem_cons, List.not_mem_nil, or_false] at this
    rcases this with h | h <;> rw [h]
  have h0 : (getRow (loadSignals df9) 0).date = 0 := by
    have hm : getRow (loadSignals df9) 0 ∈ loadSignals df9 := by
      rw [getRow, List.getD_eq_getElem _ _ (by omega)]
      exact List.getElem_mem _
    exact hdate _ hm
  have h1 : (getRow (loadSignals df9) 1).date = 0 := by
    have hm : getRow (loadSignals df9) 1 ∈ loadSignals df9 := by
      rw [getRow, List.getD_eq_getElem _ _ (by omega)]
      exact List.getElem_mem _
    exact hdate _ hm
  refine ⟨hlen, by rw [h0, h1], ?_⟩
  have hempty : (loadSignals df9).length - HOLD_DAYS = 0 := by
    rw [hlen]
    rfl
  rw [HOLD_DAYS] at hempty
  have : runBacktest HOLD_DAYS PROBABILITY_THRESHOLD TRANSACTION_COST (loadSignals df9)
      = initState := by
    rw [runBacktest, HOLD_DAYS, hempty]
    rfl
  rw [this]
  simp [summarize, initState]

/-- Claim C9 (amended): before any positional-offset logic runs, the
loaded table is sorted ascending by date and is a permutation of the
input — but duplicate dates are retained: no de-duplication happens and
no precondition check can fail. -/
theorem c9_amended (df : List SignalRow) :
    List.Pairwise (fun a b : SignalRow => a.date ≤ b.date) (loadSignals df) ∧
    (loadSignals df).Perm df := by
  constructor
  · have hs : List.Pairwise
        (fun a b : SignalRow => (decide (a.date ≤ b.date)) = true)
        (df.mergeSort (fun a b => decide (a.date ≤ b.date))) := by
      apply List.sorted_mergeSort
      · intro a b c hab hbc
        simp only [decide_eq_true_eq] at hab hbc ⊢
        omega
      · intro a b
        simp only [Bool.or_eq_true, decide_eq_true_eq]
        exact Int.le_total a.date b.date
    exact hs.imp (fun h => by simpa using h)
  · exact List.mergeSort_perm df _
